import Mathlib

/-!
Formal model of the simple_flecs ECS binding (Rust sources under src/).

The crate is a thin binding over the flecs C library.  Rust-side control
flow (registration order, bounds checks, builder logic, id resolution) is
embedded directly from the source files; behaviour supplied by the C
library (entity allocation, lookup tables, the query engine, the
scheduler) is modelled from the specification and marked as such in the
doc comments.

Machine integers: entity ids are 64-bit in the source; none of the
properties below depend on overflow, so ids are modelled as Nat.
-/

namespace SimpleFlecs

/-- Entity handle, src/entity.rs: pub type Entity = ecs_entity_t (u64). -/
abbrev Entity := Nat

/-! ## Identifier space (delete / is_alive / generations)

Modelled from the spec: allocate returns a fresh id or recycles a deleted
slot with an incremented generation; is_alive checks the stored generation
matches (spec 4.1).  The source delegates to ecs_delete / ecs_is_alive /
ecs_entity_init of the C library, which is not under src/. -/

/-- An entity id decomposed into its recycled index and generation count. -/
structure EntityId where
  idx : Nat
  gen : Nat
deriving DecidableEq, Repr

/-- Modelled from the spec: state of the identifier allocator.  Each slot
holds its current generation and a liveness flag; deleted indices are kept
on a free list for recycling. -/
structure IdSpace where
  slots : List (Nat × Bool)
  freeList : List Nat
deriving Repr

/-- Modelled from the spec: is_alive checks the stored generation matches
and the slot is live. -/
def isAlive (s : IdSpace) (e : EntityId) : Bool :=
  match s.slots[e.idx]? with
  | some (g, a) => a && (g == e.gen)
  | none => false

/-- Modelled from the spec: deleting a live entity bumps the slot's
generation, marks it dead and recycles the index. -/
def deleteId (s : IdSpace) (e : EntityId) : IdSpace :=
  if isAlive s e then
    { slots := s.slots.set e.idx (e.gen + 1, false),
      freeList := e.idx :: s.freeList }
  else s

/-- Modelled from the spec: allocate returns a fresh id or recycles a
deleted slot, keeping that slot's already-bumped generation. -/
def allocateId (s : IdSpace) : EntityId × IdSpace :=
  match s.freeList with
  | i :: rest =>
    let g := match s.slots[i]? with | some p => p.1 | none => 0
    (⟨i, g⟩, { slots := s.slots.set i (g, true), freeList := rest })
  | [] =>
    (⟨s.slots.length, 0⟩,
     { slots := s.slots ++ [(0, true)], freeList := [] })

/-! ## World state and component registration (src/world.rs)

The Rust World owns a per-instance component map (TypeId to Entity,
src/world.rs lines 20-38); the flecs world behind the raw pointer keeps
name and symbol lookup tables.  The registration control flow of
World::component, World::tag and World::component_clone is embedded
directly from src/world.rs lines 206-335. -/

/-- Compile-time data of a Rust component type T: its TypeId key and the
associated constants IS_TAG and NEEDS_DROP (src/component.rs). -/
structure CompType where
  key : Nat
  isTag : Bool
  needsDrop : Bool
deriving DecidableEq, Repr

/-- World state: the per-world component map embedded from src/world.rs,
together with the flecs-side tables it manipulates through the C API
(name table, symbol table, fresh-id counter, installed dtor hooks),
modelled from the spec. -/
structure FWorld where
  nextId : Entity
  names : List (String × Entity)
  symbols : List (String × Entity)
  compMap : List (Nat × Entity)
  dtorHooks : List Entity
deriving DecidableEq, Repr

/-- World::default / World::new: fresh world with an empty component map
(src/world.rs lines 44-63). -/
def FWorld.new : FWorld :=
  { nextId := 1, names := [], symbols := [], compMap := [], dtorHooks := [] }

/-- Modelled from the spec: ecs_lookup (not under src/) finds an entity by
its registered name. -/
def lookupName (w : FWorld) (s : String) : Option Entity :=
  (w.names.find? (fun p => p.1 == s)).map (fun p => p.2)

/-- Modelled from the spec: ecs_lookup_symbol (not under src/) finds an
entity by its registered symbol. -/
def lookupSymbol (w : FWorld) (s : String) : Option Entity :=
  (w.symbols.find? (fun p => p.1 == s)).map (fun p => p.2)

/-- Modelled from the spec: ecs_entity_init (not under src/) allocates a
fresh entity id and records the requested name and symbol (the source
passes the same string for both, src/world.rs lines 221-226). -/
def entityInit (w : FWorld) (s : String) : Entity × FWorld :=
  (w.nextId,
   { w with nextId := w.nextId + 1,
            names := (s, w.nextId) :: w.names,
            symbols := (s, w.nextId) :: w.symbols })

/-- AHashMap::insert on the per-world component map: the most recent
binding for a key wins on lookup. -/
def mapInsert (m : List (Nat × Entity)) (k : Nat) (v : Entity) : List (Nat × Entity) :=
  (k, v) :: m

/-- AHashMap::get on the per-world component map. -/
def mapGet (m : List (Nat × Entity)) (k : Nat) : Option Entity :=
  (m.find? (fun p => p.1 == k)).map (fun p => p.2)

/-- Records the registered id of T in this world's component map
(the insert calls in src/world.rs lines 214, 249, 265, 282, 294, 330). -/
def withMap (w : FWorld) (T : CompType) (e : Entity) : FWorld :=
  { w with compMap := mapInsert w.compMap T.key e }

/-- World::tag (src/world.rs lines 257-287): panics unless T is a tag,
looks the symbol up first and only registers a fresh entity when the
lookup misses. -/
def tagRegister (T : CompType) (w : FWorld) (s : String) :
    Except String (Entity × FWorld) :=
  if T.isTag = false then .error "tag function only registers tags"
  else
    match lookupSymbol w s with
    | some e => .ok (e, withMap w T e)
    | none =>
      let r := entityInit w s
      .ok (r.1, withMap r.2 T r.1)

/-- World::component (src/world.rs lines 206-254): delegates tags to
World::tag, otherwise looks the symbol up first; a fresh registration
installs the dtor hook exactly when T::NEEDS_DROP holds. -/
def componentRegister (T : CompType) (w : FWorld) (s : String) :
    Except String (Entity × FWorld) :=
  if T.isTag then tagRegister T w s
  else
    match lookupSymbol w s with
    | some e => .ok (e, withMap w T e)
    | none =>
      let r := entityInit w s
      let w2 := if T.needsDrop then { r.2 with dtorHooks := r.1 :: r.2.dtorHooks } else r.2
      .ok (r.1, withMap w2 T r.1)

/-- World::component_clone (src/world.rs lines 290-335): like
World::component but the pre-existing registration is found through
ecs_lookup by name, and a Clone-derived copy hook is installed (the copy
hook plays no role in the claims below). -/
def componentCloneRegister (T : CompType) (w : FWorld) (s : String) :
    Except String (Entity × FWorld) :=
  match lookupName w s with
  | some e => .ok (e, withMap w T e)
  | none =>
    let r := entityInit w s
    let w2 := if T.needsDrop then { r.2 with dtorHooks := r.1 :: r.2.dtorHooks } else r.2
    .ok (r.1, withMap w2 T r.1)

/-- The three registration entry points of src/world.rs. -/
inductive RegPath where
  | viaComponent
  | viaTag
  | viaClone
deriving DecidableEq, Repr

/-- Dispatches a registration through one of the three entry points. -/
def register (p : RegPath) (T : CompType) (w : FWorld) (s : String) :
    Except String (Entity × FWorld) :=
  match p with
  | .viaComponent => componentRegister T w s
  | .viaTag => tagRegister T w s
  | .viaClone => componentCloneRegister T w s

/-- A collection of independent worlds; registering in one world touches
only that world (src/world.rs keeps the component map inside each World
value, there is no global registry). -/
def registerAt (ws : List FWorld) (i : Nat) (T : CompType) (s : String) :
    List FWorld :=
  match ws[i]? with
  | none => ws
  | some w =>
    match componentRegister T w s with
    | .error _ => ws
    | .ok r => ws.set i r.2

/-! ## Component id resolution (src/component/id.rs) -/

/-- CompId::retrieve_id and TagId::retrieve_id (src/component/id.rs lines
91-116): looks T up in the world's component map and panics with a
component-not-implemented error when the type was never registered. -/
def retrieveId (T : CompType) (w : FWorld) : Except String Entity :=
  match mapGet w.compMap T.key with
  | some e => .ok e
  | none => .error "component not implemented"

/-- Pairs of (entity, component id) attached so far; stands for the
flecs-side storage an operation would mutate after resolving the id. -/
structure EntStore where
  comps : List (Entity × Entity)
deriving DecidableEq, Repr

/-- EntityView::set_comp (src/entity.rs lines 152-166): resolves T's id
through the component map before touching storage, so an unregistered T
panics before any data is written. -/
def setCompOp (T : CompType) (w : FWorld) (st : EntStore) (ent : Entity) :
    Except String EntStore :=
  match retrieveId T w with
  | .error msg => .error msg
  | .ok cid => .ok ⟨(ent, cid) :: st.comps⟩

/-! ## Field views over a table column (src/query/iter.rs lines 19-63)

A Field caches a raw column pointer, the current table's row count and the
is_on_self flag.  Index and IndexMut guard with the test written in the
source, namely index greater than length, and then read or hand out the
offset into the underlying column buffer.  The buffer is modelled as a
total function so that reads past the column are observable. -/

/-- Field of a component inside an iterator; buffer is the column memory
the cached pointer points into, length is the row count captured at
creation. -/
structure FieldView (α : Type) where
  buffer : Nat → α
  length : Nat
  is_on_self : Bool

/-- Index for Field (src/query/iter.rs lines 27-45): panic when index is
greater than length, otherwise read the buffer at the offset (offset 0
when the field is shared rather than on self). -/
def FieldView.index {α : Type} (f : FieldView α) (i : Nat) : Except String α :=
  if i > f.length then .error "index out of bounds"
  else .ok (if f.is_on_self then f.buffer i else f.buffer 0)

/-- IndexMut for Field (src/query/iter.rs lines 47-63): same guard; the
result is the buffer offset handed out for writing. -/
def FieldView.index_mut {α : Type} (f : FieldView α) (i : Nat) : Except String Nat :=
  if i > f.length then .error "index out of bounds"
  else .ok (if f.is_on_self then i else 0)

/-- Iter::get (src/query/iter.rs lines 207-229): a const block panics for
tag types before anything else; otherwise an unset field yields none and a
set field yields the column view. -/
def iterGet {α : Type} (isTag : Bool) (fieldSet : Bool) (f : FieldView α) :
    Except String (Option (FieldView α)) :=
  if isTag then .error "cannot get a field of tags"
  else if fieldSet = false then .ok none
  else .ok (some f)

/-! ## System builder (src/system.rs lines 33-157) -/

/-- Built-in flecs id EcsDependsOn (src/flecs.rs); the concrete value is
immaterial, it only needs to be a fixed nonzero id. -/
def dependsOnId : Entity := 38

/-- Built-in flecs id EcsOnUpdate of the standard update phase
(src/flecs.rs pipeline module). -/
def onUpdateId : Entity := 263

/-- The part of SystemBuilder that decides the phase edge: kind is 0
unless SystemBuilder::kind was called (src/world.rs lines 467-491 start
builders with kind 0). -/
structure SystemBuilderK where
  kind : Entity
deriving DecidableEq, Repr

/-- Dependency edges added by SystemBuilder::build (src/system.rs lines
105-128): an edge (DependsOn, kind) is added only when a kind was set;
nothing is added otherwise. -/
def buildEdges (b : SystemBuilderK) : List (Entity × Entity) :=
  if b.kind ≠ 0 then [(dependsOnId, b.kind)] else []

/-- Dependency edges added by SystemBuilder::build_named (src/system.rs
lines 131-156): an edge (DependsOn, kind) when a kind was set, else the
default edge (DependsOn, OnUpdate). -/
def buildNamedEdges (b : SystemBuilderK) : List (Entity × Entity) :=
  if b.kind ≠ 0 then [(dependsOnId, b.kind)] else [(dependsOnId, onUpdateId)]

/-! ## Scheduler rate throttling (src/system.rs lines 89-96, spec 4.6)

SystemBuilder::rate stores the rate in the system descriptor; the actual
throttling happens inside ecs_progress of the C library, modelled from the
spec: a system with rate N runs once every N calls to progress, a skipped
frame is a soft skip. -/

/-- Modelled from the spec: number of times a rate-throttled system runs
during n consecutive progress calls, starting from frame counter tick.
Each call advances the counter; the system runs on every rate-th frame and
is silently skipped on the others. -/
def rateRuns (rate tick n : Nat) : Nat :=
  match n with
  | 0 => 0
  | Nat.succ m => (if (tick + 1) % rate = 0 then 1 else 0) + rateRuns rate (tick + 1) m

/-! ## Destructor hooks (src/world.rs lines 227-247 and 351-361, spec 4.2)

The C library hands lifecycle hooks a raw void pointer to the column
block and a count.  Addresses are modelled in bytes so that the pointer
arithmetic of the hook body is observable. -/

/-- dtor_callback (src/world.rs lines 351-361): for each i in 0..count the
source offsets the *mut c_void base pointer by i - c_void has size one, so
the stride is one byte - and only then casts the result to *mut T and
calls drop_in_place on it.  The result is the list of byte addresses
drop_in_place is invoked at, in order. -/
def dtorCallback (base count : Nat) : List Nat :=
  (List.range count).map (fun i => base + i)

/-- Byte addresses of the count values stored in a column block starting
at base whose element type has the given size: element i lives at
base + i * size. -/
def storedAddrs (base size count : Nat) : List Nat :=
  (List.range count).map (fun i => base + i * size)

/-- Modelled from the spec: removing a row from a table whose component
column carries a registered dtor hook invokes the hook once, with count 1,
at the removed value's address; with no hook nothing is dropped.  Returns
the list of byte addresses the hook drops at. -/
def removeRowDrops (hasHook : Bool) (addr : Nat) : List Nat :=
  if hasHook then dtorCallback addr 1 else []

/-- Modelled from the spec: destroying a table invokes the dtor hook once
on the whole remaining column block, handing it the column base address
and the remaining row count.  Returns the list of byte addresses the hook
drops at. -/
def tableFiniDrops (hasHook : Bool) (base count : Nat) : List Nat :=
  if hasHook then dtorCallback base count else []

/-! ## Or-group query iteration (src/query/iter.rs lines 136-147, spec 4.5)

The matching itself happens in the C query engine and is modelled from the
spec: an Or-group is a single term slot whose concrete matched id is
resolved per matching table at iteration time; a table matches when at
least one member id is in its type.  Iter::check_id from the source
compares a queried id against that resolved id. -/

/-- A flecs table: its type (the id-set) and the entities living in it. -/
structure QTable where
  typ : List Entity
  ents : List Entity
deriving DecidableEq, Repr

/-- Modelled from the spec: the Or-group term A or B matches a table when
at least one member id is present in the table's type. -/
def orTableMatches (a b : Entity) (t : QTable) : Bool :=
  t.typ.contains a || t.typ.contains b

/-- Modelled from the spec: the concrete matched id of the Or term for a
matching table, resolved at iteration time; the first branch present in
the table's type wins. -/
def orFieldId (a b : Entity) (t : QTable) : Entity :=
  if t.typ.contains a then a else b

/-- Modelled from the spec: the tables a query with the Or-group visits,
each matching table exactly once. -/
def orMatchedTables (a b : Entity) (ts : List QTable) : List QTable :=
  ts.filter (orTableMatches a b)

/-- The entities visited during a full iteration of the Or-group query. -/
def orVisited (a b : Entity) (ts : List QTable) : List Entity :=
  (orMatchedTables a b ts).flatMap (fun t => t.ents)

/-- All entities of the world, table by table. -/
def allEnts (ts : List QTable) : List Entity := ts.flatMap (fun t => t.ents)

/-- Entity e has component c: it lives in a table whose type contains c. -/
def hasComp (ts : List QTable) (e c : Entity) : Prop :=
  ∃ t, t ∈ ts ∧ e ∈ t.ents ∧ c ∈ t.typ

/-- Iter::check_id (src/query/iter.rs lines 136-147): resolves the queried
id and compares it with ecs_field_id of the term for the current table. -/
def checkId (queried fieldId : Entity) : Bool := queried == fieldId

end SimpleFlecs

namespace SimpleFlecs

theorem isAlive_lt_length {s : IdSpace} {e : EntityId}
    (h : isAlive s e = true) : e.idx < s.slots.length := by
  unfold isAlive at h
  rcases hget : s.slots[e.idx]? with _ | p
  · rw [hget] at h; simp at h
  · exact (List.getElem?_eq_some_iff.mp hget).1

/-- C6: for every live entity e, after delete(e) the check is_alive(e) on the
old id returns false, and the freshly allocated id reusing e's index carries
a different generation, so the stale id stays detectably dead. -/
theorem delete_then_stale_detectable (s : IdSpace) (e : EntityId)
    (halive : isAlive s e = true) :
    isAlive (deleteId s e) e = false ∧
    (allocateId (deleteId s e)).1.idx = e.idx ∧
    (allocateId (deleteId s e)).1.gen ≠ e.gen := by
  have hlt : e.idx < s.slots.length := isAlive_lt_length halive
  have hdel : deleteId s e =
      { slots := s.slots.set e.idx (e.gen + 1, false),
        freeList := e.idx :: s.freeList } := by
    unfold deleteId; rw [halive]; simp
  refine ⟨?_, ?_, ?_⟩
  · rw [hdel]; unfold isAlive
    simp [List.getElem?_set_self hlt]
  · rw [hdel]; rfl
  · rw [hdel]
    show (allocateId _).1.gen ≠ e.gen
    unfold allocateId
    simp only [List.getElem?_set_self hlt]
    exact Nat.succ_ne_self e.gen

theorem lookupName_withMap (w : FWorld) (T : CompType) (e : Entity) (s : String) :
    lookupName (withMap w T e) s = lookupName w s := rfl

theorem lookupSymbol_withMap (w : FWorld) (T : CompType) (e : Entity) (s : String) :
    lookupSymbol (withMap w T e) s = lookupSymbol w s := rfl

theorem lookupName_entityInit (w : FWorld) (s : String) :
    lookupName (entityInit w s).2 s = some w.nextId := by
  simp [lookupName, entityInit, List.find?]

theorem lookupSymbol_entityInit (w : FWorld) (s : String) :
    lookupSymbol (entityInit w s).2 s = some w.nextId := by
  simp [lookupSymbol, entityInit, List.find?]

theorem register_found (p : RegPath) (T : CompType) (w : FWorld) (s : String)
    (e : Entity)
    (hn : lookupName w s = some e) (hs : lookupSymbol w s = some e)
    (hp : p = RegPath.viaTag → T.isTag = true) :
    register p T w s = .ok (e, withMap w T e) := by
  cases p with
  | viaComponent =>
    by_cases hT : T.isTag
    · simp [register, componentRegister, tagRegister, hT, hs]
    · simp [register, componentRegister, hT, hs]
  | viaTag =>
    have hT := hp rfl
    simp [register, tagRegister, hT, hs]
  | viaClone =>
    simp [register, componentCloneRegister, hn]

theorem register_post (p : RegPath) (T : CompType) (w : FWorld) (s : String)
    (e : Entity) (w1 : FWorld)
    (hco : lookupName w s = lookupSymbol w s)
    (h1 : register p T w s = .ok (e, w1)) :
    lookupName w1 s = some e ∧ lookupSymbol w1 s = some e := by
  cases p with
  | viaComponent =>
    by_cases hT : T.isTag
    · simp only [register, componentRegister, hT, if_true, tagRegister] at h1
      rw [if_neg (by simp [hT])] at h1
      cases hs : lookupSymbol w s with
      | some e0 =>
        rw [hs] at h1
        simp only [Except.ok.injEq, Prod.mk.injEq] at h1
        obtain ⟨he, hw⟩ := h1
        subst he; subst hw
        rw [lookupName_withMap, lookupSymbol_withMap, hco, hs]
        exact ⟨rfl, rfl⟩
      | none =>
        rw [hs] at h1
        simp only [Except.ok.injEq, Prod.mk.injEq] at h1
        obtain ⟨he, hw⟩ := h1
        subst he; subst hw
        rw [lookupName_withMap, lookupSymbol_withMap]
        exact ⟨lookupName_entityInit w s, lookupSymbol_entityInit w s⟩
    · simp only [register, componentRegister, hT, if_false, Bool.false_eq_true] at h1
      cases hs : lookupSymbol w s with
      | some e0 =>
        rw [hs] at h1
        simp only [Except.ok.injEq, Prod.mk.injEq] at h1
        obtain ⟨he, hw⟩ := h1
        subst he; subst hw
        rw [lookupName_withMap, lookupSymbol_withMap, hco, hs]
        exact ⟨rfl, rfl⟩
      | none =>
        rw [hs] at h1
        simp only [Except.ok.injEq, Prod.mk.injEq] at h1
        obtain ⟨he, hw⟩ := h1
        subst he; subst hw
        rw [lookupName_withMap, lookupSymbol_withMap]
        cases hd : T.needsDrop <;>
          simp [hd, lookupName, lookupSymbol, entityInit, List.find?]
  | viaTag =>
    by_cases hT : T.isTag
    · simp only [register, tagRegister] at h1
      rw [if_neg (by simp [hT])] at h1
      cases hs : lookupSymbol w s with
      | some e0 =>
        rw [hs] at h1
        simp only [Except.ok.injEq, Prod.mk.injEq] at h1
        obtain ⟨he, hw⟩ := h1
        subst he; subst hw
        rw [lookupName_withMap, lookupSymbol_withMap, hco, hs]
        exact ⟨rfl, rfl⟩
      | none =>
        rw [hs] at h1
        simp only [Except.ok.injEq, Prod.mk.injEq] at h1
        obtain ⟨he, hw⟩ := h1
        subst he; subst hw
        rw [lookupName_withMap, lookupSymbol_withMap]
        exact ⟨lookupName_entityInit w s, lookupSymbol_entityInit w s⟩
    · simp [register, tagRegister, hT] at h1
  | viaClone =>
    simp only [register, componentCloneRegister] at h1
    cases hn : lookupName w s with
    | some e0 =>
      rw [hn] at h1
      simp only [Except.ok.injEq, Prod.mk.injEq] at h1
      obtain ⟨he, hw⟩ := h1
      subst he; subst hw
      rw [lookupName_withMap, lookupSymbol_withMap, hn, ← hco, hn]
      exact ⟨rfl, rfl⟩
    | none =>
      rw [hn] at h1
      simp only [Except.ok.injEq, Prod.mk.injEq] at h1
      obtain ⟨he, hw⟩ := h1
      subst he; subst hw
      rw [lookupName_withMap, lookupSymbol_withMap]
      cases hd : T.needsDrop <;>
        simp [hd, lookupName, lookupSymbol, entityInit, List.find?]

/-- C1: registering T under a symbol s a second time in the same world,
through any of World::component, World::tag or World::component_clone,
returns the entity id produced by the first registration; the existing
registration is found by the name/symbol lookup, so no new entity is
created (the fresh-id counter does not move and only the per-world
component map is rewritten). -/
theorem registration_idempotent_by_symbol
    (p p2 : RegPath) (T : CompType) (w : FWorld) (s : String)
    (e : Entity) (w1 : FWorld)
    (hco : lookupName w s = lookupSymbol w s)
    (hp2 : p2 = RegPath.viaTag → T.isTag = true)
    (h1 : register p T w s = .ok (e, w1)) :
    register p2 T w1 s = .ok (e, withMap w1 T e) ∧
    (withMap w1 T e).nextId = w1.nextId := by
  obtain ⟨hn, hs⟩ := register_post p T w s e w1 hco h1
  exact ⟨register_found p2 T w1 s e hn hs hp2, rfl⟩

/-- Witness for C1: register a data component through World::component in
a fresh world, then register it again through World::component_clone. -/
theorem registration_idempotent_by_symbol_witness :
    register RegPath.viaClone ⟨7, false, false⟩
        { nextId := 2, names := [("Position", 1)], symbols := [("Position", 1)],
          compMap := [(7, 1)], dtorHooks := [] } "Position" =
      .ok (1, withMap
        { nextId := 2, names := [("Position", 1)], symbols := [("Position", 1)],
          compMap := [(7, 1)], dtorHooks := [] } ⟨7, false, false⟩ 1) ∧
    (withMap
        { nextId := 2, names := [("Position", 1)], symbols := [("Position", 1)],
          compMap := [(7, 1)], dtorHooks := [] } ⟨7, false, false⟩ 1).nextId =
      ({ nextId := 2, names := [("Position", 1)], symbols := [("Position", 1)],
          compMap := [(7, 1)], dtorHooks := [] } : FWorld).nextId :=
  registration_idempotent_by_symbol RegPath.viaComponent RegPath.viaClone
    ⟨7, false, false⟩ FWorld.new "Position" 1
    { nextId := 2, names := [("Position", 1)], symbols := [("Position", 1)],
      compMap := [(7, 1)], dtorHooks := [] }
    rfl (by intro h; cases h) rfl

/-- C9: a newly created world starts with an empty component map, and
registering a component in one world of a collection rewrites only that
world, leaving every other world's registrations unchanged. -/
theorem per_world_component_map (ws : List FWorld) (i j : Nat)
    (T : CompType) (s : String) (hij : j ≠ i) :
    FWorld.new.compMap = [] ∧ (registerAt ws i T s)[j]? = ws[j]? := by
  refine ⟨rfl, ?_⟩
  unfold registerAt
  cases hw : ws[i]? with
  | none => rfl
  | some w =>
    cases hr : componentRegister T w s with
    | error msg => simp only [hr]
    | ok r =>
      simp only [hr]
      exact List.getElem?_set_ne (fun h => hij h.symm)

/-- Witness for C9: two fresh worlds, registering in the first leaves the
second untouched. -/
theorem per_world_component_map_witness :
    FWorld.new.compMap = [] ∧
    (registerAt [FWorld.new, FWorld.new] 0 ⟨1, false, false⟩ "A")[1]? =
      [FWorld.new, FWorld.new][1]? :=
  per_world_component_map [FWorld.new, FWorld.new] 0 1 ⟨1, false, false⟩ "A"
    (by decide)

/-- C10: for a component type never registered in the world's component
map, id resolution panics with the component-not-implemented error rather
than fabricating an id, and hence any operation resolving the id through
the map (such as EntityView::set_comp) fails the same way before touching
storage. -/
theorem unregistered_component_panics (T : CompType) (w : FWorld)
    (h : mapGet w.compMap T.key = none) :
    retrieveId T w = .error "component not implemented" ∧
    ∀ st ent, setCompOp T w st ent = .error "component not implemented" := by
  have hr : retrieveId T w = .error "component not implemented" := by
    unfold retrieveId; rw [h]
  refine ⟨hr, fun st ent => ?_⟩
  unfold setCompOp; rw [hr]

/-- Witness for C10: resolving an unregistered type in a fresh world. -/
theorem unregistered_component_panics_witness :
    retrieveId ⟨3, false, false⟩ FWorld.new = .error "component not implemented" ∧
    ∀ st ent, setCompOp ⟨3, false, false⟩ FWorld.new st ent =
      .error "component not implemented" :=
  unregistered_component_panics ⟨3, false, false⟩ FWorld.new rfl

/-- C2: the bounds guard of Field's Index and IndexMut is written as
index greater than length, so the out-of-range row index equal to length
passes the guard: on a view of length 3, row 3 is read (and the offset 3
handed out for writing) one past the column instead of panicking. -/
theorem field_index_boundary_overrun :
    FieldView.index { buffer := fun i => i, length := 3, is_on_self := true } 3 =
      Except.ok 3 ∧
    FieldView.index_mut { buffer := fun i => i, length := 3, is_on_self := true } 3 =
      Except.ok 3 ∧
    FieldView.index { buffer := fun i => i, length := 3, is_on_self := true } 4 =
      Except.error "index out of bounds" :=
  ⟨rfl, rfl, rfl⟩

/-- C8: requesting a column field of a tag type through Iter::get fails
fast with a panic (the const block) for every iterator state; it never
yields a data view for a tag. -/
theorem tag_field_get_fails (α : Type) (fieldSet : Bool) (f : FieldView α) :
    iterGet true fieldSet f = .error "cannot get a field of tags" := rfl

/-- Counterexample for C3: a system finished through the anonymous
SystemBuilder::build with no kind set adds no dependency edge at all, in
particular not the default (DependsOn, OnUpdate) edge. -/
theorem build_anonymous_no_default_phase :
    buildEdges { kind := 0 } = [] ∧
    (dependsOnId, onUpdateId) ∉ buildEdges { kind := 0 } := by
  refine ⟨rfl, ?_⟩
  simp [buildEdges]

/-- C3 amended: only build_named defaults the phase: with no kind set,
build_named adds the (DependsOn, OnUpdate) edge while the anonymous build
adds no dependency edge; with an explicit kind both add exactly
(DependsOn, kind). -/
theorem system_default_phase_amended :
    buildNamedEdges { kind := 0 } = [(dependsOnId, onUpdateId)] ∧
    buildEdges { kind := 0 } = [] ∧
    ∀ k : Entity, k ≠ 0 →
      buildEdges { kind := k } = [(dependsOnId, k)] ∧
      buildNamedEdges { kind := k } = [(dependsOnId, k)] := by
  refine ⟨rfl, rfl, fun k hk => ?_⟩
  simp [buildEdges, buildNamedEdges, hk]

/-- Witness for C3 with the kind explicitly set to the id 5. -/
theorem system_default_phase_amended_witness :
    buildEdges { kind := 5 } = [(dependsOnId, 5)] ∧
    buildNamedEdges { kind := 5 } = [(dependsOnId, 5)] :=
  system_default_phase_amended.2.2 5 (by decide)

theorem rateRuns_closed (rate tick n : Nat) :
    rateRuns rate tick n = (tick + n) / rate - tick / rate := by
  induction n generalizing tick with
  | zero => simp [rateRuns]
  | succ m ih =>
    unfold rateRuns
    rw [ih (tick + 1)]
    have hsucc : (tick + 1) / rate = tick / rate + if rate ∣ tick + 1 then 1 else 0 :=
      Nat.succ_div tick rate
    have hle : (tick + 1) / rate ≤ (tick + 1 + m) / rate :=
      Nat.div_le_div_right (by omega)
    have hmod : ((tick + 1) % rate = 0) ↔ rate ∣ tick + 1 :=
      Nat.dvd_iff_mod_eq_zero.symm
    by_cases hd : rate ∣ tick + 1
    · rw [if_pos (hmod.mpr hd)]
      rw [if_pos hd] at hsucc
      have : tick + 1 + m = tick + (m + 1) := by omega
      rw [this] at hle ⊢
      omega
    · rw [if_neg (fun hc => hd (hmod.mp hc))]
      rw [if_neg hd] at hsucc
      have : tick + 1 + m = tick + (m + 1) := by omega
      rw [this] at hle ⊢
      omega

/-- C7: a system registered with rate 2 runs exactly 2 times in 4 progress
calls; in general a rate-N system runs exactly k times during k times N
consecutive progress calls, skipped frames being soft skips. -/
theorem rate_throttling :
    rateRuns 2 0 4 = 2 ∧
    ∀ rate k : Nat, 0 < rate → rateRuns rate 0 (k * rate) = k := by
  refine ⟨rfl, fun rate k h => ?_⟩
  rw [rateRuns_closed rate 0 (k * rate)]
  rw [Nat.zero_add, Nat.mul_div_cancel k h, Nat.zero_div, Nat.sub_zero]

/-- Witness for C7: a rate-3 system over 15 progress calls. -/
theorem rate_throttling_witness : 0 < 3 ∧ rateRuns 3 0 (5 * 3) = 5 :=
  ⟨by decide, rate_throttling.2 3 5 (by decide)⟩

/-- C5: registering a needs-drop component does install the destructor
hook, and the count-1 row-removal invocation drops exactly at the removed
value's address; but dtor_callback offsets the *mut c_void base pointer
before casting to *mut T, so a table destruction firing the hook with
count 2 on a column of an 8-byte component based at address 0 invokes
drop_in_place at byte addresses 0 and 1 instead of the stored values'
addresses 0 and 8 - the destructor does not run exactly once on each
stored value. -/
theorem dtor_callback_byte_stride :
    (∃ w1, componentRegister ⟨9, false, true⟩ FWorld.new "Dropper" =
        .ok (FWorld.new.nextId, w1) ∧ FWorld.new.nextId ∈ w1.dtorHooks) ∧
    removeRowDrops true 64 = [64] ∧
    tableFiniDrops true 0 2 = [0, 1] ∧
    storedAddrs 0 8 2 = [0, 8] ∧
    tableFiniDrops true 0 2 ≠ storedAddrs 0 8 2 :=
  ⟨⟨_, rfl, by decide⟩, rfl, by decide, by decide, by decide⟩

theorem flatMap_filter_sublist {α β : Type} (p : α → Bool) (f : α → List β)
    (l : List α) : List.Sublist ((l.filter p).flatMap f) (l.flatMap f) := by
  induction l with
  | nil => simp
  | cons x xs ih =>
    by_cases hx : p x
    · rw [List.filter_cons_of_pos hx, List.flatMap_cons, List.flatMap_cons]
      exact List.Sublist.append (List.Sublist.refl (f x)) ih
    · rw [List.filter_cons_of_neg hx, List.flatMap_cons]
      exact ih.trans (List.sublist_append_right (f x) (xs.flatMap f))

/-- C4: iterating an Or-group query A or B visits exactly the entities
having A or B, each at most once when entities are unique across tables,
and for each matching table check_id answers true exactly for the branch
that matched there (A wins when both are present, matching the per-table
resolution order). -/
theorem or_group_iteration_correct (a b : Entity) (ts : List QTable)
    (hab : a ≠ b) (hnd : (allEnts ts).Nodup) :
    (orVisited a b ts).Nodup ∧
    (∀ e, e ∈ orVisited a b ts ↔ (hasComp ts e a ∨ hasComp ts e b)) ∧
    (∀ t, t ∈ orMatchedTables a b ts →
      ((checkId a (orFieldId a b t) = true ↔ a ∈ t.typ) ∧
       (checkId b (orFieldId a b t) = true ↔ (b ∈ t.typ ∧ a ∉ t.typ)))) := by
  refine ⟨?_, ?_, ?_⟩
  · exact hnd.sublist (flatMap_filter_sublist (orTableMatches a b) (fun t => t.ents) ts)
  · intro e
    simp only [orVisited, orMatchedTables, List.mem_flatMap, List.mem_filter,
      orTableMatches, Bool.or_eq_true, List.elem_eq_mem, decide_eq_true_eq,
      hasComp]
    constructor
    · rintro ⟨t, ⟨ht, hor⟩, he⟩
      cases hor with
      | inl h => exact Or.inl ⟨t, ht, he, h⟩
      | inr h => exact Or.inr ⟨t, ht, he, h⟩
    · rintro (⟨t, ht, he, hc⟩ | ⟨t, ht, he, hc⟩)
      · exact ⟨t, ⟨ht, Or.inl hc⟩, he⟩
      · exact ⟨t, ⟨ht, Or.inr hc⟩, he⟩
  · intro t ht
    have hmatch : orTableMatches a b t = true :=
      (List.mem_filter.mp ht).2
    by_cases hc : a ∈ t.typ
    · have hfid : orFieldId a b t = a := by
        simp [orFieldId, hc]
      rw [hfid]
      constructor
      · simp [checkId, hc]
      · have hba : ¬b = a := fun h => hab h.symm
        simp [checkId, hba, hc]
    · have hfid : orFieldId a b t = b := by
        simp [orFieldId, hc]
      have hb : b ∈ t.typ := by
        simp only [orTableMatches, Bool.or_eq_true] at hmatch
        cases hmatch with
        | inl h => exact absurd (by simpa using h) hc
        | inr h => simpa using h
      rw [hfid]
      constructor
      · simp [checkId, hab, hc]
      · simp [checkId, hb, hc]

/-- Witness for C4: the scenario of five entities, three having A (id 1),
two having B (id 2), plus an unrelated table; every A-or-B entity is
visited exactly once and check_id reports the matching branch. -/
theorem or_group_iteration_correct_witness :
    (orVisited 1 2 [⟨[1], [10, 11, 12]⟩, ⟨[2], [13, 14]⟩, ⟨[3], [15]⟩]).Nodup ∧
    (∀ e, e ∈ orVisited 1 2 [⟨[1], [10, 11, 12]⟩, ⟨[2], [13, 14]⟩, ⟨[3], [15]⟩] ↔
      (hasComp [⟨[1], [10, 11, 12]⟩, ⟨[2], [13, 14]⟩, ⟨[3], [15]⟩] e 1 ∨
       hasComp [⟨[1], [10, 11, 12]⟩, ⟨[2], [13, 14]⟩, ⟨[3], [15]⟩] e 2)) ∧
    (∀ t, t ∈ orMatchedTables 1 2 [⟨[1], [10, 11, 12]⟩, ⟨[2], [13, 14]⟩, ⟨[3], [15]⟩] →
      ((checkId 1 (orFieldId 1 2 t) = true ↔ (1 : Entity) ∈ t.typ) ∧
       (checkId 2 (orFieldId 1 2 t) = true ↔ ((2 : Entity) ∈ t.typ ∧ (1 : Entity) ∉ t.typ)))) :=
  or_group_iteration_correct 1 2 [⟨[1], [10, 11, 12]⟩, ⟨[2], [13, 14]⟩, ⟨[3], [15]⟩]
    (by decide) (by decide)

/-- Witness for C6 at a concrete identifier-space state. -/
theorem delete_then_stale_detectable_witness :
    isAlive { slots := [(5, true)], freeList := [] } ⟨0, 5⟩ = true ∧
    (isAlive (deleteId { slots := [(5, true)], freeList := [] } ⟨0, 5⟩) ⟨0, 5⟩ = false ∧
     (allocateId (deleteId { slots := [(5, true)], freeList := [] } ⟨0, 5⟩)).1.idx = 0 ∧
     (allocateId (deleteId { slots := [(5, true)], freeList := [] } ⟨0, 5⟩)).1.gen ≠ 5) :=
  ⟨by decide, delete_then_stale_detectable { slots := [(5, true)], freeList := [] } ⟨0, 5⟩ (by decide)⟩

end SimpleFlecs
